import Mathlib

/-!
Shallow embedding of the UVE conceptual-graph synchronization engine.

The definitions below are translated from the JavaScript sources of the
repository:
  * `src/model/rdfModel.js`   — `RDFModel.getRelationships`
  * `src/model/conceptModel.js` — `ConceptModel._loadRelationships`,
    `ConceptModel._assignPositions`, `ConceptModel.getClass`,
    `ConceptModel.getClassRelationships`, `ConceptModel.getClassInterfaces`,
    `ConceptModel._extractLabelFromUri`
  * `src/model/entityTypes/classEntity.js` — `ClassEntity` and its `radius`
    getter
  * `src/view/threeView/threeView.js` — the scene-synchronization and
    navigation methods (`updateFromModel`, `clearVisualization`,
    `renderClasses`, `renderClass`, `renderRelationships`,
    `renderRelationship`, `findSphereByUri`, `renderInterfaces`,
    `renderInterface`, `renderClassInternals`, `enterClass`, `exitClass`).

JavaScript `Map` objects (insertion-ordered, unique string keys) are modelled
as association lists `List (String × α)`; `Map.get` is `alookup` (first
match), `Map.set` of a fresh key appends at the end, which is exactly how the
source populates its maps (it only ever inserts keys it has checked to be
absent).  JavaScript numbers are idealized: exact rationals where only
literal arithmetic occurs (radii, camera coordinates) and real numbers for
the trigonometric layout.  Strings are handled through their character
lists; the JavaScript `split` calls in the source all use single-character
separators.
-/

/-- JavaScript `str.split(sep)` for a single-character separator `sep`,
on character lists: splits at every occurrence, keeping empty fragments
(`"".split(c) = [""]`, `"/".split('/') = ["", ""]`). -/
def splitOnChar (sep : Char) : List Char → List (List Char)
  | [] => [[]]
  | c :: rest =>
    let r := splitOnChar sep rest
    if c = sep then [] :: r
    else
      match r with
      | [] => [[c]]
      | h :: t => (c :: h) :: t

/-- JavaScript `haystack.includes(needle)` on character lists: `true` iff
`pat` occurs as a contiguous substring (always true for the empty pattern). -/
def listContainsSub (pat : List Char) : List Char → Bool
  | [] => pat.isPrefixOf ([] : List Char)
  | c :: rest => pat.isPrefixOf (c :: rest) || listContainsSub pat rest

/-- JavaScript `s.includes(pat)` on strings. -/
def strIncludes (s pat : String) : Bool :=
  listContainsSub pat.data s.data

/-- `ThreeView.findSphereByUri`, step 2: the URI with a single
trailing-slash difference (`uri.endsWith('/') ? uri.slice(0, -1) : uri + '/'`). -/
def altOf (uri : String) : String :=
  if uri.data.getLast? = some '/' then String.mk uri.data.dropLast
  else String.mk (uri.data ++ ['/'])

/-- `ThreeView.findSphereByUri`, step 3's key: the local name
`uri.split('/').pop().split('#').pop()`. -/
def localNameOf (uri : String) : String :=
  String.mk ((splitOnChar '#' ((splitOnChar '/' uri.data).getLastD [])).getLastD [])

/-- `ConceptModel._extractLabelFromUri`: take the fragment after the last
`#`; if there is no `#` (the split returns the whole URI) take the last `/`
path segment instead. -/
def extractLabelFromUri (uri : String) : String :=
  let label := (splitOnChar '#' uri.data).getLastD []
  if label = uri.data then String.mk ((splitOnChar '/' uri.data).getLastD [])
  else String.mk label

/-- First-match lookup in an association list, modelling `Map.get`
(JavaScript maps have unique keys; the source only appends fresh keys). -/
def alookup {α : Type} : List (String × α) → String → Option α
  | [], _ => none
  | p :: rest, k => if p.1 = k then some p.2 else alookup rest k

/-- `Map.has`. -/
def hasKey {α : Type} (l : List (String × α)) (k : String) : Bool :=
  (alookup l k).isSome

/-- Keys of an association list, in iteration order. -/
def keysOf {α : Type} (l : List (String × α)) : List String :=
  l.map Prod.fst

/-- `ClassEntity` (src/model/entityTypes/classEntity.js).  Field `uri`
models `this.uri.value` (all RDF terms are represented by their string
value); `radiusOverride` models the private `_radius` field, which is
`undefined` unless the constructor received a radius or the setter ran. -/
structure ClassEntity where
  uri : String
  label : String
  interfaces : List String
  subclasses : List String
  position : ℝ × ℝ × ℝ
  radiusOverride : Option ℚ
  properties : List (String × String)
  isSelected : Bool

/-- Convenience constructor mirroring `new ClassEntity({uri, label, subclasses})`
as used by `ConceptModel._processClassNode` (defaults of the JS constructor). -/
def mkClass (uri label : String) (subs : List String) : ClassEntity :=
  ⟨uri, label, [], subs, ((0 : ℝ), 0, 0), none, [], false⟩

/-- JavaScript truthiness of `this._radius` in the `radius` getter:
`undefined` and `0` are falsy, every other number is truthy. -/
def jsTruthy : Option ℚ → Bool
  | none => false
  | some r => decide (r ≠ 0)

/-- The `radius` getter of `ClassEntity`: return `_radius` when truthy,
otherwise `baseRadius (5) + subclasses.length * subclassMultiplier (0.5)`. -/
def ClassEntity.radius (c : ClassEntity) : ℚ :=
  if jsTruthy c.radiusOverride then c.radiusOverride.getD 0
  else 5 + (c.subclasses.length : ℚ) * (1 / 2)

/-- `RelationshipEntity` (src/model/entityTypes/relationshipEntity.js):
identifier, label, and the two endpoint class identifiers. -/
structure RelationshipEntity where
  uri : String
  label : String
  sourceClassUri : String
  targetClassUri : String
  isSelected : Bool
deriving DecidableEq

/-- `InterfaceEntity` (src/model/entityTypes/interfaceEntity.js), reduced to
the fields the synchronizer consults: identifier, label, owner class. -/
structure InterfaceEntity where
  uri : String
  label : String
  classUri : String
  isSelected : Bool
deriving DecidableEq

/-- One store-level relationship definition, as `RDFModel.getRelationships`
sees it: a node typed `rdf:Property` together with its `rdfs:domain` and
`rdfs:range` objects (term values). -/
structure RelDefinition where
  property : String
  domains : List String
  ranges : List String
deriving DecidableEq

/-- One element of the array returned by `RDFModel.getRelationships`:
`{property, domain, range}`. -/
structure RelRecord where
  property : String
  domain : String
  range : String
deriving DecidableEq

/-- `RDFModel.getRelationships`: for each property, for each domain, for
each range, push one `{property, domain, range}` record. -/
def getRelationships (defs : List RelDefinition) : List RelRecord :=
  defs.flatMap fun d => d.domains.flatMap fun dom => d.ranges.map fun rng =>
    ⟨d.property, dom, rng⟩

/-- Body of the `forEach` in `ConceptModel._loadRelationships`: skip the
record when its property URI is already a key of `this.relationships`,
otherwise insert a new `RelationshipEntity` under that key.  `rdfsLabel`
models the store lookup of an `rdfs:label` for the property (the code first
derives a label from the URI, then overrides it when the store has one). -/
def loadRelStep (rdfsLabel : String → Option String)
    (m : List (String × RelationshipEntity)) (r0 : RelRecord) :
    List (String × RelationshipEntity) :=
  if hasKey m r0.property then m
  else
    m ++ [(r0.property,
      ⟨r0.property,
       (rdfsLabel r0.property).getD (extractLabelFromUri r0.property),
       r0.domain, r0.range, false⟩)]

/-- `ConceptModel._loadRelationships`: fold the records produced by
`RDFModel.getRelationships` into the (initially cleared) relationship map. -/
def loadRelationships (rdfsLabel : String → Option String)
    (recs : List RelRecord) : List (String × RelationshipEntity) :=
  recs.foldl (loadRelStep rdfsLabel) []

lemma hasKey_iff {α : Type} (l : List (String × α)) (k : String) :
    hasKey l k = true ↔ k ∈ keysOf l := by
  induction l with
  | nil => simp [hasKey, alookup, keysOf]
  | cons p rest ih =>
    by_cases h : p.1 = k
    · simp [hasKey, alookup, keysOf, h]
    · have h' : ¬ k = p.1 := fun e => h e.symm
      simpa [hasKey, alookup, keysOf, h, h'] using ih

lemma keysOf_append {α : Type} (l l' : List (String × α)) :
    keysOf (l ++ l') = keysOf l ++ keysOf l' := by
  simp [keysOf]

lemma loadRel_foldl_keys (f : String → Option String) :
    ∀ (recs : List RelRecord) (init : List (String × RelationshipEntity)),
      (keysOf init).Nodup →
      (keysOf (recs.foldl (loadRelStep f) init)).Nodup ∧
      ∀ k, k ∈ keysOf (recs.foldl (loadRelStep f) init) ↔
        (k ∈ keysOf init ∨ k ∈ recs.map RelRecord.property) := by
  intro recs
  induction recs with
  | nil =>
    intro init h
    exact ⟨h, fun k => by simp⟩
  | cons r rest ih =>
    intro init h
    rw [List.foldl_cons]
    by_cases hk : hasKey init r.property
    · have hstep : loadRelStep f init r = init := by simp [loadRelStep, hk]
      have hmem : r.property ∈ keysOf init := (hasKey_iff _ _).mp hk
      rw [hstep]
      obtain ⟨hnd, hiff⟩ := ih init h
      refine ⟨hnd, fun k => ?_⟩
      rw [hiff k]
      have hsub : k = r.property → k ∈ keysOf init := fun h1 => h1 ▸ hmem
      simp only [List.map_cons, List.mem_cons]
      tauto
    · have hnotmem : r.property ∉ keysOf init := fun hc => hk ((hasKey_iff _ _).mpr hc)
      have hkeys : keysOf (loadRelStep f init r) = keysOf init ++ [r.property] := by
        simp [loadRelStep, hk, keysOf]
      have hnd' : (keysOf (loadRelStep f init r)).Nodup := by
        rw [hkeys]
        simpa [List.nodup_append] using ⟨h, hnotmem⟩
      obtain ⟨hnd, hiff⟩ := ih (loadRelStep f init r) hnd'
      refine ⟨hnd, fun k => ?_⟩
      rw [hiff k, hkeys]
      simp only [List.mem_append, List.mem_cons, List.not_mem_nil, or_false,
        List.map_cons]
      tauto

lemma mem_getRelationships_props (defs : List RelDefinition) (k : String) :
    k ∈ (getRelationships defs).map RelRecord.property ↔
      ∃ d ∈ defs, d.property = k ∧ d.domains ≠ [] ∧ d.ranges ≠ [] := by
  constructor
  · intro h
    rw [List.mem_map] at h
    obtain ⟨r0, hr0, hk⟩ := h
    rw [getRelationships, List.mem_flatMap] at hr0
    obtain ⟨d, hd, hr0⟩ := hr0
    rw [List.mem_flatMap] at hr0
    obtain ⟨dom, hdom, hr0⟩ := hr0
    rw [List.mem_map] at hr0
    obtain ⟨rng, hrng, hr0⟩ := hr0
    subst hr0
    exact ⟨d, hd, hk, List.ne_nil_of_mem hdom, List.ne_nil_of_mem hrng⟩
  · rintro ⟨d, hd, hk, hdom, hrng⟩
    obtain ⟨dom, hdommem⟩ := List.exists_mem_of_ne_nil _ hdom
    obtain ⟨rng, hrngmem⟩ := List.exists_mem_of_ne_nil _ hrng
    rw [List.mem_map]
    refine ⟨⟨d.property, dom, rng⟩, ?_, hk⟩
    rw [getRelationships, List.mem_flatMap]
    refine ⟨d, hd, ?_⟩
    rw [List.mem_flatMap]
    exact ⟨dom, hdommem, List.mem_map.mpr ⟨rng, hrngmem, rfl⟩⟩

/-- C1 counterexample: a relationship definition with 2 domains and 1 range
produces a single `RelationshipEntity` in the published relationship map
(the map is keyed by the property URI, and `_loadRelationships` skips every
record whose property is already a key), not d×r = 2 of them. -/
theorem relationship_count_cex :
    (loadRelationships (fun _ => none)
        (getRelationships [⟨"P", ["A", "B"], ["C"]⟩])).length = 1
  ∧ ¬ ((loadRelationships (fun _ => none)
        (getRelationships [⟨"P", ["A", "B"], ["C"]⟩])).length
      = (["A", "B"] : List String).length * (["C"] : List String).length) := by
  decide

/-- C1 (amended): `RDFModel.getRelationships` does emit one record per
(domain, range) pair, but `ConceptModel._loadRelationships` keys the
published map by property URI and skips records whose property is already
present, so a definition with d domains and r ranges contributes
min(d×r, 1) entities: exactly one when d ≥ 1 and r ≥ 1, none otherwise. -/
theorem relationship_count (f : String → Option String)
    (defs : List RelDefinition) (d : RelDefinition)
    (hnd : (defs.map RelDefinition.property).Nodup) (hmem : d ∈ defs) :
    (keysOf (loadRelationships f (getRelationships defs))).count d.property
      = min (d.domains.length * d.ranges.length) 1 := by
  obtain ⟨knd, kiff⟩ :=
    loadRel_foldl_keys f (getRelationships defs) [] (by simp [keysOf])
  rw [loadRelationships]
  by_cases hde : d.domains = [] ∨ d.ranges = []
  · have hnotmem :
        d.property ∉ keysOf ((getRelationships defs).foldl (loadRelStep f) []) := by
      intro hc
      rw [kiff] at hc
      rcases hc with hc | hc
      · simp [keysOf] at hc
      · obtain ⟨d', hd', hp', hdom', hrng'⟩ :=
          (mem_getRelationships_props defs d.property).mp hc
        have : d' = d :=
          List.inj_on_of_nodup_map hnd hd' hmem hp'
        subst this
        rcases hde with h | h
        · exact hdom' h
        · exact hrng' h
    rw [List.count_eq_zero_of_not_mem hnotmem]
    rcases hde with h | h <;> simp [h]
  · push_neg at hde
    have hmm : d.property ∈ keysOf ((getRelationships defs).foldl (loadRelStep f) []) := by
      rw [kiff]
      exact Or.inr ((mem_getRelationships_props defs d.property).mpr
        ⟨d, hmem, rfl, hde.1, hde.2⟩)
    rw [List.count_eq_one_of_mem knd hmm]
    have h1 : 0 < d.domains.length := List.length_pos.mpr hde.1
    have h2 : 0 < d.ranges.length := List.length_pos.mpr hde.2
    have : 0 < d.domains.length * d.ranges.length := Nat.mul_pos h1 h2
    omega

def defsC1 : List RelDefinition :=
  [⟨"P", ["A", "B"], ["C"]⟩, ⟨"Q", ["A"], ["C"]⟩]

/-- Witness for the amended C1 theorem at a concrete extraction pass. -/
theorem relationship_count_witness :
    (defsC1.map RelDefinition.property).Nodup
  ∧ (⟨"P", ["A", "B"], ["C"]⟩ : RelDefinition) ∈ defsC1
  ∧ (keysOf (loadRelationships (fun _ => none) (getRelationships defsC1))).count "P" = 1 := by
  refine ⟨by decide, by decide, ?_⟩
  have h := relationship_count (fun _ => none) defsC1
    ⟨"P", ["A", "B"], ["C"]⟩ (by decide) (by decide)
  simpa using h

/-- C6: for every `ClassEntity` whose radius has not been explicitly
overridden, the `radius` getter returns 5 + 0.5 × (number of subclasses);
in particular 0 subclasses gives 5 and 4 subclasses gives 7. -/
theorem radius_law (c : ClassEntity) (h : c.radiusOverride = none) :
    c.radius = 5 + (c.subclasses.length : ℚ) * (1 / 2)
  ∧ (c.subclasses.length = 0 → c.radius = 5)
  ∧ (c.subclasses.length = 4 → c.radius = 7) := by
  have hr : c.radius = 5 + (c.subclasses.length : ℚ) * (1 / 2) := by
    simp [ClassEntity.radius, h, jsTruthy]
  refine ⟨hr, fun hn => ?_, fun hn => ?_⟩ <;> rw [hr, hn] <;> norm_num

/-- Witness for C6 at concrete classes with 0 and 4 subclasses. -/
theorem radius_law_witness :
    (mkClass "A" "A" []).radiusOverride = none
  ∧ (mkClass "A" "A" []).radius = 5
  ∧ (mkClass "B" "B" ["s1", "s2", "s3", "s4"]).radiusOverride = none
  ∧ (mkClass "B" "B" ["s1", "s2", "s3", "s4"]).radius = 7 :=
  ⟨rfl, (radius_law (mkClass "A" "A" []) rfl).2.1 rfl, rfl,
   (radius_law (mkClass "B" "B" ["s1", "s2", "s3", "s4"]) rfl).2.2 rfl⟩

/-- A navigation frame, as pushed by `ThreeView.enterClass`:
`{classUri: this.currentClassUri, cameraPosition: clone, cameraRotation: clone}`. -/
structure NavFrame where
  classUri : Option String
  cameraPos : ℚ × ℚ × ℚ
  cameraRot : ℚ × ℚ × ℚ
deriving DecidableEq

/-- A sphere visual handle (`components/sphere.js`): its identity (modelling
the freshly-constructed JS object) and the class entity it renders. -/
structure Sphere where
  sid : Nat
  entity : ClassEntity

/-- A pipe visual handle (`components/pipe.js`). -/
structure Pipe where
  pid : Nat
  rel : RelationshipEntity

/-- A port visual handle (`components/port.js`). -/
structure Port where
  ptid : Nat
  intf : InterfaceEntity

/-- The published entity graph: `ConceptModel.classes` / `.relationships` /
`.interfaces`, each a URI-keyed, insertion-ordered map. -/
structure ConceptModelData where
  classes : List (String × ClassEntity)
  relationships : List (String × RelationshipEntity)
  interfaces : List (String × InterfaceEntity)

/-- The mutable state of a `ThreeView`: the three component maps, the
navigation stack, the current scope, and the camera.  `nextId` numbers
freshly-constructed visual handles so that handle identity is observable;
`createCalls` / `disposeCalls` count constructor and `dispose()` calls. -/
structure ViewState where
  spheres : List (String × Sphere)
  pipes : List (String × Pipe)
  ports : List (String × Port)
  navigationStack : List NavFrame
  currentClassUri : Option String
  cameraPos : ℚ × ℚ × ℚ
  cameraRot : ℚ × ℚ × ℚ
  nextId : Nat
  createCalls : Nat
  disposeCalls : Nat

/-- Total number of live visual handles. -/
def tot (s : ViewState) : Nat :=
  s.spheres.length + s.pipes.length + s.ports.length

/-- `ThreeView.clearVisualization`: dispose every sphere, pipe and port and
clear the three maps. -/
def clearVisualization (s : ViewState) : ViewState :=
  { s with spheres := [], pipes := [], ports := [],
           disposeCalls := s.disposeCalls + tot s }

/-- `ThreeView.renderClass`: skip when the class URI is already a key of
`this.spheres`; otherwise construct a `Sphere` and store it under the URI. -/
def renderClass (c : ClassEntity) (s : ViewState) : ViewState :=
  if hasKey s.spheres c.uri then s
  else
    { s with spheres := s.spheres ++ [(c.uri, ⟨s.nextId, c⟩)],
             nextId := s.nextId + 1, createCalls := s.createCalls + 1 }

/-- `ThreeView.renderClasses`: render every class of the conceptual model,
in map iteration order. -/
def renderClasses (m : ConceptModelData) (s : ViewState) : ViewState :=
  m.classes.foldl (fun st p => renderClass p.2 st) s

/-- `ThreeView.findSphereByUri`: (1) exact key match; (2) the URI with a
trailing-slash toggled; (3) first sphere whose key contains the URI's local
name as a substring; otherwise `null`. -/
def findSphereByUri (spheres : List (String × Sphere)) (uri : String) :
    Option Sphere :=
  match alookup spheres uri with
  | some sp => some sp
  | none =>
    match alookup spheres (altOf uri) with
    | some sp => some sp
    | none =>
      match spheres.find? (fun p => strIncludes p.1 (localNameOf uri)) with
      | some p => some p.2
      | none => none

/-- `ThreeView.renderRelationship`: skip when already rendered; resolve both
endpoints through `findSphereByUri`; skip (with a warning) when either is
missing; otherwise construct a `Pipe` and store it under the relationship
URI. -/
def renderRelationship (r : RelationshipEntity) (s : ViewState) : ViewState :=
  if hasKey s.pipes r.uri then s
  else
    match findSphereByUri s.spheres r.sourceClassUri,
          findSphereByUri s.spheres r.targetClassUri with
    | some _, some _ =>
      { s with pipes := s.pipes ++ [(r.uri, ⟨s.nextId, r⟩)],
               nextId := s.nextId + 1, createCalls := s.createCalls + 1 }
    | _, _ => s

/-- `ThreeView.renderRelationships`: render every relationship of the model. -/
def renderRelationships (m : ConceptModelData) (s : ViewState) : ViewState :=
  m.relationships.foldl (fun st p => renderRelationship p.2 st) s

/-- `ThreeView.renderInterface`: skip when already rendered; skip (with a
warning) unless the owner class URI is an exact key of `this.spheres`;
otherwise construct a `Port` and store it under the interface URI. -/
def renderInterface (i : InterfaceEntity) (s : ViewState) : ViewState :=
  if hasKey s.ports i.uri then s
  else if hasKey s.spheres i.classUri then
    { s with ports := s.ports ++ [(i.uri, ⟨s.nextId, i⟩)],
             nextId := s.nextId + 1, createCalls := s.createCalls + 1 }
  else s

/-- `ThreeView.renderInterfaces`: render every interface of the model. -/
def renderInterfaces (m : ConceptModelData) (s : ViewState) : ViewState :=
  m.interfaces.foldl (fun st p => renderInterface p.2 st) s

/-- `ThreeView.renderClassInternals`: for an unknown class, log and render
nothing.  Otherwise render the class's direct subclasses (those resolving in
the model), then every relationship whose two endpoints are (exact) keys of
the sphere map, then every interface whose owner class is a key of the
sphere map. -/
def renderClassInternals (m : ConceptModelData) (classUri : String)
    (s : ViewState) : ViewState :=
  match alookup m.classes classUri with
  | none => s
  | some ce =>
    let s1 := ce.subclasses.foldl (fun st su =>
      match alookup m.classes su with
      | some sub => renderClass sub st
      | none => st) s
    let s2 := m.relationships.foldl (fun st p =>
      if hasKey st.spheres p.2.sourceClassUri && hasKey st.spheres p.2.targetClassUri
      then renderRelationship p.2 st else st) s1
    m.interfaces.foldl (fun st p =>
      if hasKey st.spheres p.2.classUri then renderInterface p.2 st else st) s2

/-- `ThreeView.updateFromModel`: clear the whole visualization, then either
render the current class's internals (when inside a class) or render all
classes, relationships and interfaces. -/
def updateFromModel (m : ConceptModelData) (s : ViewState) : ViewState :=
  match (clearVisualization s).currentClassUri with
  | some c => renderClassInternals m c (clearVisualization s)
  | none =>
    renderInterfaces m (renderRelationships m (renderClasses m (clearVisualization s)))

/-- `ThreeView.enterClass`: reject (log, no state change) when the URI is
not a key of the concept model's class map; otherwise push
{current scope, camera snapshot} on the navigation stack, set the scope,
reset the camera to position (0,0,15) and rotation (0,0,0), and re-run
`updateFromModel`. -/
def enterClass (m : ConceptModelData) (classUri : String) (s : ViewState) :
    ViewState :=
  match alookup m.classes classUri with
  | none => s
  | some _ =>
    updateFromModel m
      { s with
        navigationStack :=
          ⟨s.currentClassUri, s.cameraPos, s.cameraRot⟩ :: s.navigationStack,
        currentClassUri := some classUri,
        cameraPos := ((0 : ℚ), 0, 15), cameraRot := ((0 : ℚ), 0, 0) }

/-- The JavaScript errors the embedding distinguishes. -/
inductive JsError
  | referenceError
  | typeError
deriving DecidableEq

/-- `ThreeView.exitClass`: empty stack → warn, no state change.  Otherwise
pop one frame; the code then calls `getClass(this.currentClassUri)` for its
log message, which throws a `TypeError` when the current scope is `null`
(`typeof null !== 'string'`, so the branch reads `null.value`) — in that
case the pop has happened but nothing is restored.  Otherwise restore scope
and camera from the frame and re-run `updateFromModel`. -/
def exitClass (m : ConceptModelData) (s : ViewState) :
    ViewState × Option JsError :=
  match s.navigationStack with
  | [] => (s, none)
  | f :: rest =>
    match s.currentClassUri with
    | none => ({ s with navigationStack := rest }, some JsError.typeError)
    | some _ =>
      (updateFromModel m
        { s with navigationStack := rest, currentClassUri := f.classUri,
                 cameraPos := f.cameraPos, cameraRot := f.cameraRot }, none)

/-- The components of a `ThreeView` that the render functions never touch
(they only mutate the three maps, `nextId` and `createCalls`). -/
def navPart (s : ViewState) :
    List NavFrame × Option String × (ℚ × ℚ × ℚ) × (ℚ × ℚ × ℚ) × Nat :=
  (s.navigationStack, s.currentClassUri, s.cameraPos, s.cameraRot,
   s.disposeCalls)

lemma navPart_renderClass (c : ClassEntity) (s : ViewState) :
    navPart (renderClass c s) = navPart s := by
  unfold renderClass
  split <;> rfl

lemma navPart_renderRelationship (r : RelationshipEntity) (s : ViewState) :
    navPart (renderRelationship r s) = navPart s := by
  unfold renderRelationship
  split
  · rfl
  · split <;> rfl

lemma navPart_renderInterface (i : InterfaceEntity) (s : ViewState) :
    navPart (renderInterface i s) = navPart s := by
  unfold renderInterface
  split
  · rfl
  · split <;> rfl

lemma navPart_foldl {α : Type} (f : ViewState → α → ViewState)
    (h : ∀ st a, navPart (f st a) = navPart st) :
    ∀ (l : List α) (st : ViewState), navPart (l.foldl f st) = navPart st := by
  intro l
  induction l with
  | nil => intro st; rfl
  | cons a rest ih => intro st; rw [List.foldl_cons, ih, h]

lemma navPart_renderClassInternals (m : ConceptModelData) (c : String)
    (s : ViewState) : navPart (renderClassInternals m c s) = navPart s := by
  unfold renderClassInternals
  split
  · rfl
  · have h1 : ∀ (st : ViewState) (su : String),
        navPart (match alookup m.classes su with
          | some sub => renderClass sub st
          | none => st) = navPart st := by
      intro st su
      split
      · exact navPart_renderClass _ _
      · rfl
    have h2 : ∀ (st : ViewState) (p : String × RelationshipEntity),
        navPart (if hasKey st.spheres p.2.sourceClassUri
                    && hasKey st.spheres p.2.targetClassUri
                 then renderRelationship p.2 st else st) = navPart st := by
      intro st p
      split
      · exact navPart_renderRelationship _ _
      · rfl
    have h3 : ∀ (st : ViewState) (p : String × InterfaceEntity),
        navPart (if hasKey st.spheres p.2.classUri
                 then renderInterface p.2 st else st) = navPart st := by
      intro st p
      split
      · exact navPart_renderInterface _ _
      · rfl
    exact (navPart_foldl _ h3 _ _).trans
      ((navPart_foldl _ h2 _ _).trans (navPart_foldl _ h1 _ _))

lemma navPart_clear (s : ViewState) :
    navPart (clearVisualization s) =
      (s.navigationStack, s.currentClassUri, s.cameraPos, s.cameraRot,
       s.disposeCalls + tot s) := rfl

/-- `updateFromModel` leaves the navigation stack, the scope and the camera
untouched, and disposes exactly the handles that existed before the call. -/
lemma updateFromModel_nav (m : ConceptModelData) (s : ViewState) :
    (updateFromModel m s).navigationStack = s.navigationStack
  ∧ (updateFromModel m s).currentClassUri = s.currentClassUri
  ∧ (updateFromModel m s).cameraPos = s.cameraPos
  ∧ (updateFromModel m s).cameraRot = s.cameraRot
  ∧ (updateFromModel m s).disposeCalls = s.disposeCalls + tot s := by
  have hnav : navPart (updateFromModel m s) = navPart (clearVisualization s) := by
    unfold updateFromModel
    split
    · exact navPart_renderClassInternals _ _ _
    · exact (navPart_foldl
          (fun st (p : String × InterfaceEntity) => renderInterface p.2 st)
          (fun st p => navPart_renderInterface p.2 st) _ _).trans
        ((navPart_foldl
            (fun st (p : String × RelationshipEntity) => renderRelationship p.2 st)
            (fun st p => navPart_renderRelationship p.2 st) _ _).trans
          (navPart_foldl
            (fun st (p : String × ClassEntity) => renderClass p.2 st)
            (fun st p => navPart_renderClass p.2 st) _ _))
  rw [navPart_clear] at hnav
  simp only [navPart, Prod.mk.injEq] at hnav
  obtain ⟨h1, h2, h3, h4, h5⟩ := hnav
  exact ⟨h1, h2, h3, h4, h5⟩

lemma create_tot_renderClass (c : ClassEntity) (st : ViewState) (c0 : Nat)
    (h : st.createCalls = c0 + tot st) :
    (renderClass c st).createCalls = c0 + tot (renderClass c st) := by
  unfold renderClass
  split
  · exact h
  · simp only [tot, List.length_append, List.length_cons, List.length_nil] at h ⊢
    omega

lemma create_tot_renderRelationship (r : RelationshipEntity) (st : ViewState)
    (c0 : Nat) (h : st.createCalls = c0 + tot st) :
    (renderRelationship r st).createCalls = c0 + tot (renderRelationship r st) := by
  unfold renderRelationship
  split
  · exact h
  · split
    · simp only [tot, List.length_append, List.length_cons, List.length_nil] at h ⊢
      omega
    · exact h

lemma create_tot_renderInterface (i : InterfaceEntity) (st : ViewState)
    (c0 : Nat) (h : st.createCalls = c0 + tot st) :
    (renderInterface i st).createCalls = c0 + tot (renderInterface i st) := by
  unfold renderInterface
  split
  · exact h
  · split
    · simp only [tot, List.length_append, List.length_cons, List.length_nil] at h ⊢
      omega
    · exact h

lemma create_tot_foldl {α : Type} (f : ViewState → α → ViewState)
    (hf : ∀ st a c0, st.createCalls = c0 + tot st →
      (f st a).createCalls = c0 + tot (f st a)) :
    ∀ (l : List α) (st : ViewState) (c0 : Nat), st.createCalls = c0 + tot st →
      (l.foldl f st).createCalls = c0 + tot (l.foldl f st) := by
  intro l
  induction l with
  | nil => intro st c0 h; exact h
  | cons a rest ih =>
    intro st c0 h
    rw [List.foldl_cons]
    exact ih (f st a) c0 (hf st a c0 h)

lemma create_tot_renderClassInternals (m : ConceptModelData) (c : String)
    (st : ViewState) (c0 : Nat) (h : st.createCalls = c0 + tot st) :
    (renderClassInternals m c st).createCalls
      = c0 + tot (renderClassInternals m c st) := by
  unfold renderClassInternals
  split
  · exact h
  · apply create_tot_foldl
    · intro st' p c0' h'
      split
      · exact create_tot_renderInterface _ _ _ h'
      · exact h'
    · apply create_tot_foldl
      · intro st' p c0' h'
        split
        · exact create_tot_renderRelationship _ _ _ h'
        · exact h'
      · apply create_tot_foldl
        · intro st' su c0' h'
          split
          · exact create_tot_renderClass _ _ _ h'
          · exact h'
        · exact h

/-- Each `updateFromModel` pass performs exactly one constructor call per
visual handle present after the pass (it rebuilds the scene from empty
maps, and each creation appends exactly one map entry). -/
lemma updateFromModel_create (m : ConceptModelData) (s : ViewState) :
    (updateFromModel m s).createCalls
      = s.createCalls + tot (updateFromModel m s) := by
  have hclear : (clearVisualization s).createCalls
      = s.createCalls + tot (clearVisualization s) := by
    simp [clearVisualization, tot]
  unfold updateFromModel
  split
  · exact create_tot_renderClassInternals _ _ _ _ hclear
  · apply create_tot_foldl
    · intro st p c0 h
      exact create_tot_renderInterface _ _ _ h
    · apply create_tot_foldl
      · intro st p c0 h
        exact create_tot_renderRelationship _ _ _ h
      · apply create_tot_foldl
        · intro st p c0 h
          exact create_tot_renderClass _ _ _ h
        · exact hclear

/-- The observable content of the three handle maps: keys and attached
entities, forgetting the identity (`nextId` numbering) of the handles. -/
def stripState (s : ViewState) :
    List (String × ClassEntity) × List (String × RelationshipEntity)
      × List (String × InterfaceEntity) :=
  (s.spheres.map (fun p => (p.1, p.2.entity)),
   s.pipes.map (fun p => (p.1, p.2.rel)),
   s.ports.map (fun p => (p.1, p.2.intf)))

lemma stripState_eq_iff {s t : ViewState} :
    stripState s = stripState t ↔
      (s.spheres.map (fun p => (p.1, p.2.entity))
          = t.spheres.map (fun p => (p.1, p.2.entity))
       ∧ s.pipes.map (fun p => (p.1, p.2.rel))
          = t.pipes.map (fun p => (p.1, p.2.rel))
       ∧ s.ports.map (fun p => (p.1, p.2.intf))
          = t.ports.map (fun p => (p.1, p.2.intf))) := by
  simp [stripState, Prod.ext_iff]

lemma keysOf_map_snd {α β : Type} (l : List (String × α)) (f : α → β) :
    keysOf (l.map (fun p => (p.1, f p.2))) = keysOf l := by
  simp [keysOf, List.map_map, Function.comp]

lemma keysOf_spheres_of_strip {s t : ViewState} (h : stripState s = stripState t) :
    keysOf s.spheres = keysOf t.spheres := by
  obtain ⟨h1, _, _⟩ := stripState_eq_iff.mp h
  have := congrArg keysOf h1
  rwa [keysOf_map_snd, keysOf_map_snd] at this

lemma keysOf_pipes_of_strip {s t : ViewState} (h : stripState s = stripState t) :
    keysOf s.pipes = keysOf t.pipes := by
  obtain ⟨_, h2, _⟩ := stripState_eq_iff.mp h
  have := congrArg keysOf h2
  rwa [keysOf_map_snd, keysOf_map_snd] at this

lemma keysOf_ports_of_strip {s t : ViewState} (h : stripState s = stripState t) :
    keysOf s.ports = keysOf t.ports := by
  obtain ⟨_, _, h3⟩ := stripState_eq_iff.mp h
  have := congrArg keysOf h3
  rwa [keysOf_map_snd, keysOf_map_snd] at this

lemma alookup_isSome_congr {α β : Type} :
    ∀ (l : List (String × α)) (l' : List (String × β)),
      keysOf l = keysOf l' →
      ∀ k, (alookup l k).isSome = (alookup l' k).isSome := by
  intro l
  induction l with
  | nil =>
    intro l' h k
    cases l' with
    | nil => rfl
    | cons q rest' => simp [keysOf] at h
  | cons p rest ih =>
    intro l' h k
    cases l' with
    | nil => simp [keysOf] at h
    | cons q rest' =>
      simp only [keysOf, List.map_cons, List.cons.injEq] at h
      obtain ⟨h1, h2⟩ := h
      by_cases hk : p.1 = k
      · have hk' : q.1 = k := h1 ▸ hk
        simp [alookup, hk, hk']
      · have hk' : ¬ q.1 = k := h1 ▸ hk
        simpa [alookup, hk, hk'] using ih rest' h2 k

lemma hasKey_congr {α β : Type} (l : List (String × α)) (l' : List (String × β))
    (h : keysOf l = keysOf l') (k : String) : hasKey l k = hasKey l' k :=
  alookup_isSome_congr l l' h k

lemma find?_key_isSome_congr {α β : Type} (pred : String → Bool) :
    ∀ (l : List (String × α)) (l' : List (String × β)),
      keysOf l = keysOf l' →
      (l.find? (fun p => pred p.1)).isSome
        = (l'.find? (fun p => pred p.1)).isSome := by
  intro l
  induction l with
  | nil =>
    intro l' h
    cases l' with
    | nil => rfl
    | cons q rest' => simp [keysOf] at h
  | cons p rest ih =>
    intro l' h
    cases l' with
    | nil => simp [keysOf] at h
    | cons q rest' =>
      simp only [keysOf, List.map_cons, List.cons.injEq] at h
      obtain ⟨h1, h2⟩ := h
      by_cases hp : pred p.1
      · have hq : pred q.1 := h1 ▸ hp
        simp [List.find?_cons, hp, hq]
      · have hq : ¬ pred q.1 := h1 ▸ hp
        simpa [List.find?_cons, hp, hq] using ih rest' h2

lemma findSphere_isSome_congr (l l' : List (String × Sphere))
    (h : keysOf l = keysOf l') (uri : String) :
    (findSphereByUri l uri).isSome = (findSphereByUri l' uri).isSome := by
  have h1 := alookup_isSome_congr l l' h uri
  have h2 := alookup_isSome_congr l l' h (altOf uri)
  have h3 := find?_key_isSome_congr (fun k => strIncludes k (localNameOf uri)) l l' h
  unfold findSphereByUri
  cases hA : alookup l uri with
  | some sp =>
    cases hA' : alookup l' uri with
    | some sp' => rfl
    | none => rw [hA, hA'] at h1; simp at h1
  | none =>
    cases hA' : alookup l' uri with
    | some sp' => rw [hA, hA'] at h1; simp at h1
    | none =>
      cases hB : alookup l (altOf uri) with
      | some sp =>
        cases hB' : alookup l' (altOf uri) with
        | some sp' => rfl
        | none => rw [hB, hB'] at h2; simp at h2
      | none =>
        cases hB' : alookup l' (altOf uri) with
        | some sp' => rw [hB, hB'] at h2; simp at h2
        | none =>
          cases hC : l.find? (fun p => strIncludes p.1 (localNameOf uri)) with
          | some p =>
            cases hC' : l'.find? (fun p => strIncludes p.1 (localNameOf uri)) with
            | some p' => rfl
            | none => rw [hC, hC'] at h3; simp at h3
          | none =>
            cases hC' : l'.find? (fun p => strIncludes p.1 (localNameOf uri)) with
            | some p' => rw [hC, hC'] at h3; simp at h3
            | none => rfl

lemma renderClass_skip (c : ClassEntity) (s : ViewState)
    (h : hasKey s.spheres c.uri = true) : renderClass c s = s := by
  unfold renderClass
  rw [h]
  simp

lemma renderClass_new (c : ClassEntity) (s : ViewState)
    (h : hasKey s.spheres c.uri = false) :
    renderClass c s =
      { s with spheres := s.spheres ++ [(c.uri, ⟨s.nextId, c⟩)],
               nextId := s.nextId + 1, createCalls := s.createCalls + 1 } := by
  unfold renderClass
  rw [h]
  simp

lemma renderRelationship_skip (r : RelationshipEntity) (s : ViewState)
    (h : hasKey s.pipes r.uri = true) : renderRelationship r s = s := by
  unfold renderRelationship
  rw [h]
  simp

lemma renderRelationship_new (r : RelationshipEntity) (s : ViewState)
    (h : hasKey s.pipes r.uri = false)
    (hsrc : (findSphereByUri s.spheres r.sourceClassUri).isSome = true)
    (htgt : (findSphereByUri s.spheres r.targetClassUri).isSome = true) :
    renderRelationship r s =
      { s with pipes := s.pipes ++ [(r.uri, ⟨s.nextId, r⟩)],
               nextId := s.nextId + 1, createCalls := s.createCalls + 1 } := by
  obtain ⟨sp, hsp⟩ := Option.isSome_iff_exists.mp hsrc
  obtain ⟨tp, htp⟩ := Option.isSome_iff_exists.mp htgt
  unfold renderRelationship
  rw [h, hsp, htp]
  simp

lemma renderRelationship_missing (r : RelationshipEntity) (s : ViewState)
    (h : hasKey s.pipes r.uri = false)
    (hmiss : (findSphereByUri s.spheres r.sourceClassUri).isSome = false
           ∨ (findSphereByUri s.spheres r.targetClassUri).isSome = false) :
    renderRelationship r s = s := by
  unfold renderRelationship
  rw [h]
  simp only [Bool.false_eq_true, if_false]
  cases hA : findSphereByUri s.spheres r.sourceClassUri with
  | none =>
    cases hB : findSphereByUri s.spheres r.targetClassUri with
    | none => rfl
    | some tp => rfl
  | some sp =>
    cases hB : findSphereByUri s.spheres r.targetClassUri with
    | none => rfl
    | some tp =>
      rcases hmiss with hm | hm
      · rw [hA] at hm; simp at hm
      · rw [hB] at hm; simp at hm

lemma renderInterface_skip (i : InterfaceEntity) (s : ViewState)
    (h : hasKey s.ports i.uri = true) : renderInterface i s = s := by
  unfold renderInterface
  rw [h]
  simp

lemma renderInterface_new (i : InterfaceEntity) (s : ViewState)
    (h : hasKey s.ports i.uri = false)
    (hcls : hasKey s.spheres i.classUri = true) :
    renderInterface i s =
      { s with ports := s.ports ++ [(i.uri, ⟨s.nextId, i⟩)],
               nextId := s.nextId + 1, createCalls := s.createCalls + 1 } := by
  unfold renderInterface
  rw [h, hcls]
  simp

lemma renderInterface_missing (i : InterfaceEntity) (s : ViewState)
    (h : hasKey s.ports i.uri = false)
    (hcls : hasKey s.spheres i.classUri = false) :
    renderInterface i s = s := by
  unfold renderInterface
  rw [h, hcls]
  simp

lemma renderClassInternals_unknown (m : ConceptModelData) (c : String)
    (s : ViewState) (h : alookup m.classes c = none) :
    renderClassInternals m c s = s := by
  unfold renderClassInternals
  rw [h]

lemma renderClassInternals_known (m : ConceptModelData) (c : String)
    (s : ViewState) (ce : ClassEntity) (h : alookup m.classes c = some ce) :
    renderClassInternals m c s =
      m.interfaces.foldl (fun st p =>
          if hasKey st.spheres p.2.classUri then renderInterface p.2 st else st)
        (m.relationships.foldl (fun st p =>
            if hasKey st.spheres p.2.sourceClassUri
                && hasKey st.spheres p.2.targetClassUri
            then renderRelationship p.2 st else st)
          (ce.subclasses.foldl (fun st su =>
              match alookup m.classes su with
              | some sub => renderClass sub st
              | none => st) s)) := by
  unfold renderClassInternals
  rw [h]

lemma updateFromModel_eq_some (m : ConceptModelData) (s : ViewState)
    (c : String) (h : s.currentClassUri = some c) :
    updateFromModel m s = renderClassInternals m c (clearVisualization s) := by
  have h' : (clearVisualization s).currentClassUri = some c := h
  unfold updateFromModel
  rw [h']

lemma updateFromModel_eq_none (m : ConceptModelData) (s : ViewState)
    (h : s.currentClassUri = none) :
    updateFromModel m s =
      renderInterfaces m (renderRelationships m (renderClasses m (clearVisualization s))) := by
  have h' : (clearVisualization s).currentClassUri = none := h
  unfold updateFromModel
  rw [h']

lemma sim_renderClass (c : ClassEntity) {s t : ViewState}
    (h : stripState s = stripState t) :
    stripState (renderClass c s) = stripState (renderClass c t) := by
  obtain ⟨h1, h2, h3⟩ := stripState_eq_iff.mp h
  have hk : hasKey s.spheres c.uri = hasKey t.spheres c.uri :=
    hasKey_congr _ _ (keysOf_spheres_of_strip h) c.uri
  cases hc : hasKey t.spheres c.uri with
  | true =>
    rw [renderClass_skip c s (hk.trans hc), renderClass_skip c t hc]
    exact h
  | false =>
    rw [renderClass_new c s (hk.trans hc), renderClass_new c t hc]
    rw [stripState_eq_iff]
    refine ⟨?_, h2, h3⟩
    simp only [List.map_append, List.map_cons, List.map_nil]
    rw [h1]

lemma sim_renderRelationship (r : RelationshipEntity) {s t : ViewState}
    (h : stripState s = stripState t) :
    stripState (renderRelationship r s) = stripState (renderRelationship r t) := by
  obtain ⟨h1, h2, h3⟩ := stripState_eq_iff.mp h
  have hks : keysOf s.spheres = keysOf t.spheres := keysOf_spheres_of_strip h
  have hk : hasKey s.pipes r.uri = hasKey t.pipes r.uri :=
    hasKey_congr _ _ (keysOf_pipes_of_strip h) r.uri
  have hsrc := findSphere_isSome_congr _ _ hks r.sourceClassUri
  have htgt := findSphere_isSome_congr _ _ hks r.targetClassUri
  cases hc : hasKey t.pipes r.uri with
  | true =>
    rw [renderRelationship_skip r s (hk.trans hc), renderRelationship_skip r t hc]
    exact h
  | false =>
    cases hA : (findSphereByUri t.spheres r.sourceClassUri).isSome with
    | false =>
      rw [renderRelationship_missing r s (hk.trans hc) (Or.inl (hsrc.trans hA)),
          renderRelationship_missing r t hc (Or.inl hA)]
      exact h
    | true =>
      cases hB : (findSphereByUri t.spheres r.targetClassUri).isSome with
      | false =>
        rw [renderRelationship_missing r s (hk.trans hc) (Or.inr (htgt.trans hB)),
            renderRelationship_missing r t hc (Or.inr hB)]
        exact h
      | true =>
        rw [renderRelationship_new r s (hk.trans hc) (hsrc.trans hA) (htgt.trans hB),
            renderRelationship_new r t hc hA hB]
        rw [stripState_eq_iff]
        refine ⟨h1, ?_, h3⟩
        simp only [List.map_append, List.map_cons, List.map_nil]
        rw [h2]

lemma sim_renderInterface (i : InterfaceEntity) {s t : ViewState}
    (h : stripState s = stripState t) :
    stripState (renderInterface i s) = stripState (renderInterface i t) := by
  obtain ⟨h1, h2, h3⟩ := stripState_eq_iff.mp h
  have hkp : hasKey s.ports i.uri = hasKey t.ports i.uri :=
    hasKey_congr _ _ (keysOf_ports_of_strip h) i.uri
  have hks : hasKey s.spheres i.classUri = hasKey t.spheres i.classUri :=
    hasKey_congr _ _ (keysOf_spheres_of_strip h) i.classUri
  cases hc : hasKey t.ports i.uri with
  | true =>
    rw [renderInterface_skip i s (hkp.trans hc), renderInterface_skip i t hc]
    exact h
  | false =>
    cases hc2 : hasKey t.spheres i.classUri with
    | true =>
      rw [renderInterface_new i s (hkp.trans hc) (hks.trans hc2),
          renderInterface_new i t hc hc2]
      rw [stripState_eq_iff]
      refine ⟨h1, h2, ?_⟩
      simp only [List.map_append, List.map_cons, List.map_nil]
      rw [h3]
    | false =>
      rw [renderInterface_missing i s (hkp.trans hc) (hks.trans hc2),
          renderInterface_missing i t hc hc2]
      exact h

lemma sim_foldl {α : Type} (f : ViewState → α → ViewState)
    (hf : ∀ a {s t : ViewState}, stripState s = stripState t →
      stripState (f s a) = stripState (f t a)) :
    ∀ (l : List α) {s t : ViewState}, stripState s = stripState t →
      stripState (l.foldl f s) = stripState (l.foldl f t) := by
  intro l
  induction l with
  | nil => intro s t h; exact h
  | cons a rest ih =>
    intro s t h
    simp only [List.foldl_cons]
    exact ih (hf a h)

/-- The handle maps a synchronization pass produces depend only on the
model and the scope, never on the previous maps or the handle counter: the
pass starts from cleared maps and fills them deterministically. -/
lemma updateFromModel_strip (m : ConceptModelData) {s t : ViewState}
    (hscope : s.currentClassUri = t.currentClassUri) :
    stripState (updateFromModel m s) = stripState (updateFromModel m t) := by
  have hclear : stripState (clearVisualization s)
      = stripState (clearVisualization t) := by
    simp [stripState, clearVisualization]
  have hstep1 : ∀ (su : String) {s' t' : ViewState},
      stripState s' = stripState t' →
      stripState (match alookup m.classes su with
        | some sub => renderClass sub s'
        | none => s') =
      stripState (match alookup m.classes su with
        | some sub => renderClass sub t'
        | none => t') := by
    intro su s' t' h'
    cases alookup m.classes su with
    | some sub => exact sim_renderClass sub h'
    | none => exact h'
  have hstep2 : ∀ (p : String × RelationshipEntity) {s' t' : ViewState},
      stripState s' = stripState t' →
      stripState (if hasKey s'.spheres p.2.sourceClassUri
                     && hasKey s'.spheres p.2.targetClassUri
                  then renderRelationship p.2 s' else s') =
      stripState (if hasKey t'.spheres p.2.sourceClassUri
                     && hasKey t'.spheres p.2.targetClassUri
                  then renderRelationship p.2 t' else t') := by
    intro p s' t' h'
    have hsrc : hasKey s'.spheres p.2.sourceClassUri
        = hasKey t'.spheres p.2.sourceClassUri :=
      hasKey_congr _ _ (keysOf_spheres_of_strip h') _
    have htgt : hasKey s'.spheres p.2.targetClassUri
        = hasKey t'.spheres p.2.targetClassUri :=
      hasKey_congr _ _ (keysOf_spheres_of_strip h') _
    rw [hsrc, htgt]
    cases hcond : (hasKey t'.spheres p.2.sourceClassUri
        && hasKey t'.spheres p.2.targetClassUri) with
    | true =>
      simp only [eq_self_iff_true, if_true]
      exact sim_renderRelationship p.2 h'
    | false =>
      simp only [Bool.false_eq_true, if_false]
      exact h'
  have hstep3 : ∀ (p : String × InterfaceEntity) {s' t' : ViewState},
      stripState s' = stripState t' →
      stripState (if hasKey s'.spheres p.2.classUri
                  then renderInterface p.2 s' else s') =
      stripState (if hasKey t'.spheres p.2.classUri
                  then renderInterface p.2 t' else t') := by
    intro p s' t' h'
    have hks : hasKey s'.spheres p.2.classUri = hasKey t'.spheres p.2.classUri :=
      hasKey_congr _ _ (keysOf_spheres_of_strip h') _
    rw [hks]
    cases hcond : hasKey t'.spheres p.2.classUri with
    | true =>
      simp only [eq_self_iff_true, if_true]
      exact sim_renderInterface p.2 h'
    | false =>
      simp only [Bool.false_eq_true, if_false]
      exact h'
  cases hcs : t.currentClassUri with
  | some c =>
    rw [updateFromModel_eq_some m s c (hscope.trans hcs),
        updateFromModel_eq_some m t c hcs]
    cases hce : alookup m.classes c with
    | none =>
      rw [renderClassInternals_unknown m c _ hce,
          renderClassInternals_unknown m c _ hce]
      exact hclear
    | some ce =>
      rw [renderClassInternals_known m c _ ce hce,
          renderClassInternals_known m c _ ce hce]
      exact sim_foldl _ hstep3 _
        (sim_foldl _ hstep2 _ (sim_foldl _ hstep1 _ hclear))
  | none =>
    rw [updateFromModel_eq_none m s (hscope.trans hcs),
        updateFromModel_eq_none m t hcs]
    unfold renderInterfaces renderRelationships renderClasses
    exact sim_foldl _ (fun p {s' t'} h' => sim_renderInterface p.2 h') _
      (sim_foldl _ (fun p {s' t'} h' => sim_renderRelationship p.2 h') _
        (sim_foldl _ (fun p {s' t'} h' => sim_renderClass p.2 h') _ hclear))

lemma tot_eq_of_strip {s t : ViewState} (h : stripState s = stripState t) :
    tot s = tot t := by
  obtain ⟨h1, h2, h3⟩ := stripState_eq_iff.mp h
  have l1 := congrArg List.length h1
  have l2 := congrArg List.length h2
  have l3 := congrArg List.length h3
  simp only [List.length_map] at l1 l2 l3
  simp only [tot, l1, l2, l3]

def entA : ClassEntity := mkClass "A" "A" []

def mC2 : ConceptModelData := ⟨[("A", entA)], [], []⟩

/-- A `ThreeView` right after construction: empty maps, empty navigation
stack, top-level scope. -/
def emptyView : ViewState :=
  ⟨[], [], [], [], none, ((0 : ℚ), 0, 0), ((0 : ℚ), 0, 0), 0, 0, 0⟩

/-- C2 counterexample: on a one-class graph, the second of two consecutive
`updateFromModel` runs with no intervening change performs one dispose call
and one create call (it rebuilds the scene), and the sphere handle after the
second run is a different object (different construction number) from the
one after the first run — not a no-op on handle identity. -/
theorem scene_sync_idempotent_cex :
    ¬ ((updateFromModel mC2 (updateFromModel mC2 emptyView)).createCalls
          = (updateFromModel mC2 emptyView).createCalls
       ∧ (updateFromModel mC2 (updateFromModel mC2 emptyView)).disposeCalls
          = (updateFromModel mC2 emptyView).disposeCalls)
  ∧ (alookup (updateFromModel mC2 (updateFromModel mC2 emptyView)).spheres "A").map
        Sphere.sid
      ≠ (alookup (updateFromModel mC2 emptyView).spheres "A").map Sphere.sid := by
  decide

/-- C2 (amended): two consecutive `updateFromModel` runs with no intervening
graph or scope change produce the same visible handle keys and entity
contents, but the pass is not a no-op on handle identity: the second run
disposes every handle present after the first run and re-creates the same
number of handles (the code clears the whole visualization and rebuilds it
each pass). -/
theorem scene_sync_second_run (m : ConceptModelData) (s : ViewState) :
    stripState (updateFromModel m (updateFromModel m s))
      = stripState (updateFromModel m s)
  ∧ (updateFromModel m (updateFromModel m s)).disposeCalls
      = (updateFromModel m s).disposeCalls + tot (updateFromModel m s)
  ∧ (updateFromModel m (updateFromModel m s)).createCalls
      = (updateFromModel m s).createCalls + tot (updateFromModel m s) := by
  have hscope : (updateFromModel m s).currentClassUri = s.currentClassUri :=
    (updateFromModel_nav m s).2.1
  have hstrip : stripState (updateFromModel m (updateFromModel m s))
      = stripState (updateFromModel m s) := updateFromModel_strip m hscope
  refine ⟨hstrip, ?_, ?_⟩
  · exact (updateFromModel_nav m (updateFromModel m s)).2.2.2.2
  · have hcr := updateFromModel_create m (updateFromModel m s)
    rw [tot_eq_of_strip hstrip] at hcr
    exact hcr

lemma enterClass_unknown (m : ConceptModelData) (classUri : String)
    (s : ViewState) (h : alookup m.classes classUri = none) :
    enterClass m classUri s = s := by
  unfold enterClass
  rw [h]

lemma enterClass_known (m : ConceptModelData) (classUri : String)
    (s : ViewState) (e : ClassEntity) (h : alookup m.classes classUri = some e) :
    (enterClass m classUri s).currentClassUri = some classUri
  ∧ (enterClass m classUri s).navigationStack
      = ⟨s.currentClassUri, s.cameraPos, s.cameraRot⟩ :: s.navigationStack
  ∧ (enterClass m classUri s).cameraPos = ((0 : ℚ), 0, 15)
  ∧ (enterClass m classUri s).cameraRot = ((0 : ℚ), 0, 0) := by
  have heq : enterClass m classUri s =
      updateFromModel m
        { s with
          navigationStack :=
            ⟨s.currentClassUri, s.cameraPos, s.cameraRot⟩ :: s.navigationStack,
          currentClassUri := some classUri,
          cameraPos := ((0 : ℚ), 0, 15), cameraRot := ((0 : ℚ), 0, 0) } := by
    unfold enterClass
    rw [h]
  rw [heq]
  obtain ⟨h1, h2, h3, h4, _⟩ := updateFromModel_nav m
    { s with
      navigationStack :=
        ⟨s.currentClassUri, s.cameraPos, s.cameraRot⟩ :: s.navigationStack,
      currentClassUri := some classUri,
      cameraPos := ((0 : ℚ), 0, 15), cameraRot := ((0 : ℚ), 0, 0) }
  exact ⟨h2, h1, h3, h4⟩

lemma exitClass_empty (m : ConceptModelData) (s : ViewState)
    (h : s.navigationStack = []) : exitClass m s = (s, none) := by
  unfold exitClass
  rw [h]

lemma exitClass_pop (m : ConceptModelData) (s : ViewState) (f : NavFrame)
    (rest : List NavFrame) (c : String) (h : s.navigationStack = f :: rest)
    (hc : s.currentClassUri = some c) :
    (exitClass m s).2 = none
  ∧ (exitClass m s).1.navigationStack = rest
  ∧ (exitClass m s).1.currentClassUri = f.classUri
  ∧ (exitClass m s).1.cameraPos = f.cameraPos
  ∧ (exitClass m s).1.cameraRot = f.cameraRot := by
  have heq : exitClass m s =
      (updateFromModel m
        { s with navigationStack := rest, currentClassUri := f.classUri,
                 cameraPos := f.cameraPos, cameraRot := f.cameraRot }, none) := by
    unfold exitClass
    rw [h, hc]
  rw [heq]
  obtain ⟨h1, h2, h3, h4, _⟩ := updateFromModel_nav m
    { s with navigationStack := rest, currentClassUri := f.classUri,
             cameraPos := f.cameraPos, cameraRot := f.cameraRot }
  exact ⟨rfl, h1, h2, h3, h4⟩

/-- C5: `exitClass()` with an empty navigation stack is a no-op on the whole
view state (the code only logs a warning); with a non-empty stack (and a
non-null current scope, which holds in every state the navigation API can
reach) it pops exactly one frame and restores the saved scope, camera
position and camera rotation exactly. -/
theorem exitClass_spec (m : ConceptModelData) (s : ViewState) :
    (s.navigationStack = [] → exitClass m s = (s, none))
  ∧ (∀ f rest c, s.navigationStack = f :: rest → s.currentClassUri = some c →
      (exitClass m s).2 = none
    ∧ (exitClass m s).1.navigationStack = rest
    ∧ (exitClass m s).1.currentClassUri = f.classUri
    ∧ (exitClass m s).1.cameraPos = f.cameraPos
    ∧ (exitClass m s).1.cameraRot = f.cameraRot) :=
  ⟨fun h => exitClass_empty m s h,
   fun f rest c h hc => exitClass_pop m s f rest c h hc⟩

def mNav : ConceptModelData :=
  ⟨[("A", mkClass "A" "A" []), ("B", mkClass "B" "B" [])], [], []⟩

def stackedView : ViewState :=
  { emptyView with
    navigationStack := [⟨none, ((0 : ℚ), 0, 0), ((0 : ℚ), 0, 0)⟩],
    currentClassUri := some "A" }

/-- Witness for C5 at a concrete empty-stack state and a concrete
one-frame state. -/
theorem exitClass_spec_witness :
    emptyView.navigationStack = []
  ∧ exitClass mNav emptyView = (emptyView, none)
  ∧ stackedView.navigationStack = [⟨none, ((0 : ℚ), 0, 0), ((0 : ℚ), 0, 0)⟩]
  ∧ stackedView.currentClassUri = some "A"
  ∧ (exitClass mNav stackedView).2 = none
  ∧ (exitClass mNav stackedView).1.navigationStack = []
  ∧ (exitClass mNav stackedView).1.currentClassUri = none := by
  obtain ⟨e1, hn, hc, _, _⟩ := (exitClass_spec mNav stackedView).2
    ⟨none, ((0 : ℚ), 0, 0), ((0 : ℚ), 0, 0)⟩ [] "A" rfl rfl
  exact ⟨rfl, (exitClass_spec mNav emptyView).1 rfl, rfl, rfl, e1, hn, hc⟩

/-- C4 counterexample: with classes A (no subclasses) and B, entering A
makes the visible-class set empty (B is not visible), yet `enterClass("B")`
still succeeds and changes the scope — the code checks only that the URI is
a key of the class map, not that the class is currently visible. -/
theorem enterClass_visibility_cex :
    keysOf (enterClass mNav "A" emptyView).spheres = []
  ∧ (enterClass mNav "A" emptyView).currentClassUri = some "A"
  ∧ (enterClass mNav "B" (enterClass mNav "A" emptyView)).currentClassUri
      = some "B" := by
  decide

/-- C4 (amended): `enterClass(id)` succeeds iff `id` is a key of the concept
model's class map — current visibility is not checked.  On success it pushes
{current scope, camera snapshot} onto the navigation stack, sets the scope
to the entered class and resets the camera to position (0,0,15), rotation
(0,0,0); for an unknown id it logs and leaves the whole state unchanged. -/
theorem enterClass_spec (m : ConceptModelData) (classUri : String)
    (s : ViewState) :
    (alookup m.classes classUri = none → enterClass m classUri s = s)
  ∧ (∀ e, alookup m.classes classUri = some e →
      (enterClass m classUri s).currentClassUri = some classUri
    ∧ (enterClass m classUri s).navigationStack
        = ⟨s.currentClassUri, s.cameraPos, s.cameraRot⟩ :: s.navigationStack
    ∧ (enterClass m classUri s).cameraPos = ((0 : ℚ), 0, 15)
    ∧ (enterClass m classUri s).cameraRot = ((0 : ℚ), 0, 0)) :=
  ⟨fun h => enterClass_unknown m classUri s h,
   fun e h => enterClass_known m classUri s e h⟩

/-- Witness for the amended C4 theorem: a concrete unknown id is a no-op,
and a concrete known id pushes a frame, sets the scope and resets the
camera. -/
theorem enterClass_spec_witness :
    alookup mNav.classes "Z" = none
  ∧ enterClass mNav "Z" emptyView = emptyView
  ∧ alookup mNav.classes "A" = some (mkClass "A" "A" [])
  ∧ (enterClass mNav "A" emptyView).currentClassUri = some "A"
  ∧ (enterClass mNav "A" emptyView).navigationStack
      = [⟨none, ((0 : ℚ), 0, 0), ((0 : ℚ), 0, 0)⟩]
  ∧ (enterClass mNav "A" emptyView).cameraPos = ((0 : ℚ), 0, 15)
  ∧ (enterClass mNav "A" emptyView).cameraRot = ((0 : ℚ), 0, 0) := by
  obtain ⟨hc, hn, hp, hr⟩ := (enterClass_spec mNav "A" emptyView).2
    (mkClass "A" "A" []) rfl
  exact ⟨rfl, (enterClass_spec mNav "Z" emptyView).1 rfl, rfl, hc, hn, hp, hr⟩

/-- C3: for any starting state and any two class ids the model knows, the
sequence enterClass(a); enterClass(b); exitClass(); exitClass() throws
nothing and restores the scope, the camera position and rotation, and the
navigation stack to exactly their values before enterClass(a); since the
starting state (and so the starting stack) is arbitrary, the law holds at
arbitrary nesting depth. -/
theorem nav_roundtrip (m : ConceptModelData) (a b : String) (s : ViewState)
    (ha : (alookup m.classes a).isSome = true)
    (hb : (alookup m.classes b).isSome = true) :
    (exitClass m (enterClass m b (enterClass m a s))).2 = none
  ∧ (exitClass m (exitClass m (enterClass m b (enterClass m a s))).1).2 = none
  ∧ (exitClass m (exitClass m (enterClass m b (enterClass m a s))).1).1.currentClassUri
      = s.currentClassUri
  ∧ (exitClass m (exitClass m (enterClass m b (enterClass m a s))).1).1.cameraPos
      = s.cameraPos
  ∧ (exitClass m (exitClass m (enterClass m b (enterClass m a s))).1).1.cameraRot
      = s.cameraRot
  ∧ (exitClass m (exitClass m (enterClass m b (enterClass m a s))).1).1.navigationStack
      = s.navigationStack := by
  obtain ⟨ea, hea⟩ := Option.isSome_iff_exists.mp ha
  obtain ⟨eb, heb⟩ := Option.isSome_iff_exists.mp hb
  obtain ⟨h1c, h1n, h1p, h1r⟩ := enterClass_known m a s ea hea
  obtain ⟨h2c, h2n, h2p, h2r⟩ :=
    enterClass_known m b (enterClass m a s) eb heb
  obtain ⟨e1, p1n, p1c, p1p, p1r⟩ :=
    exitClass_pop m (enterClass m b (enterClass m a s))
      ⟨(enterClass m a s).currentClassUri, (enterClass m a s).cameraPos,
       (enterClass m a s).cameraRot⟩
      (enterClass m a s).navigationStack b h2n h2c
  obtain ⟨e2, q1n, q1c, q1p, q1r⟩ :=
    exitClass_pop m (exitClass m (enterClass m b (enterClass m a s))).1
      ⟨s.currentClassUri, s.cameraPos, s.cameraRot⟩ s.navigationStack a
      (p1n.trans h1n) (p1c.trans h1c)
  exact ⟨e1, e2, q1c, q1p, q1r, q1n⟩

/-- Witness for C3 at a concrete model and a concrete starting state. -/
theorem nav_roundtrip_witness :
    (alookup mNav.classes "A").isSome = true
  ∧ (alookup mNav.classes "B").isSome = true
  ∧ (exitClass mNav (exitClass mNav (enterClass mNav "B" (enterClass mNav "A" emptyView))).1).1.currentClassUri
      = emptyView.currentClassUri
  ∧ (exitClass mNav (exitClass mNav (enterClass mNav "B" (enterClass mNav "A" emptyView))).1).1.cameraPos
      = emptyView.cameraPos
  ∧ (exitClass mNav (exitClass mNav (enterClass mNav "B" (enterClass mNav "A" emptyView))).1).1.cameraRot
      = emptyView.cameraRot
  ∧ (exitClass mNav (exitClass mNav (enterClass mNav "B" (enterClass mNav "A" emptyView))).1).1.navigationStack
      = emptyView.navigationStack := by
  obtain ⟨_, _, hc, hp, hr, hn⟩ :=
    nav_roundtrip mNav "A" "B" emptyView (by decide) (by decide)
  exact ⟨by decide, by decide, hc, hp, hr, hn⟩

lemma hasKey_false_iff {α : Type} (l : List (String × α)) (k : String) :
    hasKey l k = false ↔ k ∉ keysOf l := by
  rw [← hasKey_iff]
  cases hasKey l k <;> simp

lemma spheres_renderRelationship (r : RelationshipEntity) (s : ViewState) :
    (renderRelationship r s).spheres = s.spheres := by
  unfold renderRelationship
  split
  · rfl
  · split <;> rfl

lemma spheres_renderInterface (i : InterfaceEntity) (s : ViewState) :
    (renderInterface i s).spheres = s.spheres := by
  unfold renderInterface
  split
  · rfl
  · split <;> rfl

lemma spheres_foldl {α : Type} (f : ViewState → α → ViewState)
    (hf : ∀ st a, (f st a).spheres = st.spheres) :
    ∀ (l : List α) (st : ViewState), (l.foldl f st).spheres = st.spheres := by
  intro l
  induction l with
  | nil => intro st; rfl
  | cons a rest ih =>
    intro st
    rw [List.foldl_cons, ih, hf]

lemma renderClasses_keys :
    ∀ (cl : List (String × ClassEntity)) (s : ViewState),
      (∀ p ∈ cl, p.2.uri = p.1) →
      (keysOf s.spheres ++ keysOf cl).Nodup →
      keysOf ((cl.foldl (fun st p => renderClass p.2 st) s).spheres)
        = keysOf s.spheres ++ keysOf cl := by
  intro cl
  induction cl with
  | nil => intro s _ _; simp [keysOf]
  | cons p rest ih =>
    intro s hcoh hnd
    have hu : p.2.uri = p.1 := hcoh p (List.mem_cons_self p rest)
    have hnotin : p.1 ∉ keysOf s.spheres := by
      intro hin
      rw [List.nodup_append] at hnd
      exact hnd.2.2 hin (by simp [keysOf])
    have hkey : hasKey s.spheres p.2.uri = false := by
      rw [hu]
      exact (hasKey_false_iff _ _).mpr hnotin
    rw [List.foldl_cons, renderClass_new p.2 s hkey]
    have hkeys' :
        keysOf ({ s with
            spheres := s.spheres ++ [(p.2.uri, (⟨s.nextId, p.2⟩ : Sphere))],
            nextId := s.nextId + 1,
            createCalls := s.createCalls + 1 } : ViewState).spheres
          = keysOf s.spheres ++ [p.1] := by
      simp [keysOf, hu]
    have hnd' :
        (keysOf ({ s with
            spheres := s.spheres ++ [(p.2.uri, (⟨s.nextId, p.2⟩ : Sphere))],
            nextId := s.nextId + 1,
            createCalls := s.createCalls + 1 } : ViewState).spheres
          ++ keysOf rest).Nodup := by
      rw [hkeys']
      simpa [List.append_assoc, keysOf] using hnd
    rw [ih _ (fun q hq => hcoh q (List.mem_cons_of_mem p hq)) hnd', hkeys']
    simp [keysOf, List.append_assoc]

lemma renderSubs_keys (m : ConceptModelData) :
    ∀ (subs : List String) (s : ViewState),
      (∀ u ∈ subs, ∃ e, alookup m.classes u = some e ∧ e.uri = u) →
      (keysOf s.spheres ++ subs).Nodup →
      keysOf ((subs.foldl (fun st su =>
          match alookup m.classes su with
          | some sub => renderClass sub st
          | none => st) s).spheres)
        = keysOf s.spheres ++ subs := by
  intro subs
  induction subs with
  | nil => intro s _ _; simp
  | cons u rest ih =>
    intro s hres hnd
    obtain ⟨e, he, heu⟩ := hres u (List.mem_cons_self u rest)
    have hnotin : u ∉ keysOf s.spheres := by
      intro hin
      rw [List.nodup_append] at hnd
      exact hnd.2.2 hin (List.mem_cons_self u rest)
    have hkey : hasKey s.spheres e.uri = false := by
      rw [heu]
      exact (hasKey_false_iff _ _).mpr hnotin
    simp only [List.foldl_cons, he]
    rw [renderClass_new e s hkey]
    have hkeys' :
        keysOf ({ s with
            spheres := s.spheres ++ [(e.uri, (⟨s.nextId, e⟩ : Sphere))],
            nextId := s.nextId + 1,
            createCalls := s.createCalls + 1 } : ViewState).spheres
          = keysOf s.spheres ++ [u] := by
      simp [keysOf, heu]
    have hnd' :
        (keysOf ({ s with
            spheres := s.spheres ++ [(e.uri, (⟨s.nextId, e⟩ : Sphere))],
            nextId := s.nextId + 1,
            createCalls := s.createCalls + 1 } : ViewState).spheres
          ++ rest).Nodup := by
      rw [hkeys']
      simpa [List.append_assoc] using hnd
    rw [ih _ (fun v hv => hres v (List.mem_cons_of_mem u hv)) hnd', hkeys']
    simp [List.append_assoc]

/-- C7: in top-level scope the synchronizer renders exactly the classes of
the entity graph (in map order); in scope InsideClass(c) it renders exactly
c's direct subclasses — transitive subclasses are absent, and a class with
zero subclasses yields an empty visible-class set.  The hypotheses are the
invariants the extractor guarantees: map keys are the entities' URIs and are
distinct, and every registered subclass identifier is a key of the class
map (subclass edges are only registered between known classes). -/
theorem visible_classes (m : ConceptModelData) (s : ViewState)
    (hcoh : ∀ p ∈ m.classes, p.2.uri = p.1)
    (hnd : (keysOf m.classes).Nodup) :
    (s.currentClassUri = none →
      keysOf (updateFromModel m s).spheres = keysOf m.classes)
  ∧ (∀ c ce, s.currentClassUri = some c → alookup m.classes c = some ce →
      ce.subclasses.Nodup →
      (∀ u ∈ ce.subclasses, ∃ e, alookup m.classes u = some e ∧ e.uri = u) →
      keysOf (updateFromModel m s).spheres = ce.subclasses) := by
  constructor
  · intro hscope
    rw [updateFromModel_eq_none m s hscope]
    unfold renderInterfaces renderRelationships renderClasses
    rw [spheres_foldl (fun st (p : String × InterfaceEntity) => renderInterface p.2 st)
          (fun st p => spheres_renderInterface p.2 st) _ _,
        spheres_foldl (fun st (p : String × RelationshipEntity) => renderRelationship p.2 st)
          (fun st p => spheres_renderRelationship p.2 st) _ _]
    have h := renderClasses_keys m.classes (clearVisualization s) hcoh
      (by simpa [clearVisualization, keysOf] using hnd)
    simpa [clearVisualization, keysOf] using h
  · intro c ce hscope hce hndsub hres
    rw [updateFromModel_eq_some m s c hscope,
        renderClassInternals_known m c _ ce hce]
    have hstep3 : ∀ (st : ViewState) (p : String × InterfaceEntity),
        ((if hasKey st.spheres p.2.classUri
          then renderInterface p.2 st else st) : ViewState).spheres
          = st.spheres := by
      intro st p
      split
      · exact spheres_renderInterface _ _
      · rfl
    have hstep2 : ∀ (st : ViewState) (p : String × RelationshipEntity),
        ((if hasKey st.spheres p.2.sourceClassUri
             && hasKey st.spheres p.2.targetClassUri
          then renderRelationship p.2 st else st) : ViewState).spheres
          = st.spheres := by
      intro st p
      split
      · exact spheres_renderRelationship _ _
      · rfl
    rw [spheres_foldl _ hstep3 _ _, spheres_foldl _ hstep2 _ _]
    have h := renderSubs_keys m ce.subclasses (clearVisualization s) hres
      (by simpa [clearVisualization, keysOf] using hndsub)
    simpa [clearVisualization, keysOf] using h

def entRoot : ClassEntity := mkClass "Root" "Root" ["B"]

def entB : ClassEntity := mkClass "B" "B" []

def mC7 : ConceptModelData := ⟨[("Root", entRoot), ("B", entB)], [], []⟩

def inRootView : ViewState := { emptyView with currentClassUri := some "Root" }

def inBView : ViewState := { emptyView with currentClassUri := some "B" }

/-- Witness for C7: at a concrete two-class graph, top-level scope shows
both classes, InsideClass(Root) shows exactly Root's direct subclass B, and
InsideClass(B) (zero subclasses) shows nothing. -/
theorem visible_classes_witness :
    (∀ p ∈ mC7.classes, p.2.uri = p.1)
  ∧ (keysOf mC7.classes).Nodup
  ∧ keysOf (updateFromModel mC7 emptyView).spheres = keysOf mC7.classes
  ∧ keysOf (updateFromModel mC7 inRootView).spheres = ["B"]
  ∧ keysOf (updateFromModel mC7 inBView).spheres = [] := by
  have hcoh : ∀ p ∈ mC7.classes, p.2.uri = p.1 := by
    intro p hp
    simp only [mC7, List.mem_cons, List.not_mem_nil, or_false] at hp
    rcases hp with h | h <;> subst h <;> rfl
  have hnd : (keysOf mC7.classes).Nodup := by decide
  have htop := (visible_classes mC7 emptyView hcoh hnd).1 rfl
  have hroot := (visible_classes mC7 inRootView hcoh hnd).2 "Root" entRoot
    rfl rfl (by decide)
    (fun u hu => by
      simp only [entRoot, mkClass, List.mem_singleton] at hu
      subst hu
      exact ⟨entB, rfl, rfl⟩)
  have hb := (visible_classes mC7 inBView hcoh hnd).2 "B" entB
    rfl rfl (by decide)
    (fun u hu => by simp [entB, mkClass] at hu)
  exact ⟨hcoh, hnd, htop, hroot, hb⟩

def sphW : Sphere := ⟨0, entA⟩

def stC8 : ViewState := { emptyView with spheres := [("a/", sphW)] }

def intfC8 : InterfaceEntity := ⟨"i", "i", "a", false⟩

/-- C8 counterexample: with one visible class stored under the key "a/",
the three-step resolution finds a sphere for the endpoint identifier "a"
(step 2, trailing-slash tolerance), but an interface whose owner class
identifier is "a" is NOT rendered — `renderInterface` only performs the
exact `spheres.has` check, so the claimed three-step order does not apply
to interface endpoints. -/
theorem endpoint_resolution_cex :
    (findSphereByUri stC8.spheres "a").isSome = true
  ∧ hasKey stC8.spheres "a" = false
  ∧ hasKey stC8.ports intfC8.uri = false
  ∧ intfC8.classUri = "a"
  ∧ (renderInterface intfC8 stC8).ports.length = 0 := by
  decide

/-- C8 (amended): for relationship endpoints, `findSphereByUri` applies, in
order, (1) exact key match, (2) a match tolerant of a single
trailing-separator difference, (3) a last-resort substring match of the
identifier's local name against the visible-class keys, and the endpoint
resolves iff one of the three steps finds a visible class.  For interface
endpoints only an exact key match of the owner class identifier is applied:
the interface renders iff that exact key is present. -/
theorem endpoint_resolution (spheres : List (String × Sphere)) (uri : String)
    (s : ViewState) (i : InterfaceEntity) :
    ((alookup spheres uri).isSome = true →
        findSphereByUri spheres uri = alookup spheres uri)
  ∧ (alookup spheres uri = none →
     (alookup spheres (altOf uri)).isSome = true →
        findSphereByUri spheres uri = alookup spheres (altOf uri))
  ∧ ((findSphereByUri spheres uri).isSome = true ↔
        ((alookup spheres uri).isSome = true
         ∨ (alookup spheres (altOf uri)).isSome = true
         ∨ ∃ p ∈ spheres, strIncludes p.1 (localNameOf uri) = true))
  ∧ (hasKey s.ports i.uri = false → hasKey s.spheres i.classUri = false →
        renderInterface i s = s)
  ∧ (hasKey s.ports i.uri = false → hasKey s.spheres i.classUri = true →
        (renderInterface i s).ports = s.ports ++ [(i.uri, ⟨s.nextId, i⟩)]) := by
  refine ⟨?_, ?_, ?_, ?_, ?_⟩
  · intro h
    obtain ⟨sp, hsp⟩ := Option.isSome_iff_exists.mp h
    unfold findSphereByUri
    rw [hsp]
  · intro h1 h2
    obtain ⟨sp, hsp⟩ := Option.isSome_iff_exists.mp h2
    unfold findSphereByUri
    rw [h1, hsp]
  · cases h1 : alookup spheres uri with
    | some sp =>
      have hL : findSphereByUri spheres uri = some sp := by
        unfold findSphereByUri
        rw [h1]
      rw [hL]
      simp
    | none =>
      cases h2 : alookup spheres (altOf uri) with
      | some sp =>
        have hL : findSphereByUri spheres uri = some sp := by
          unfold findSphereByUri
          rw [h1, h2]
        rw [hL]
        simp
      | none =>
        cases h3 : spheres.find? (fun p => strIncludes p.1 (localNameOf uri)) with
        | some p =>
          have hL : findSphereByUri spheres uri = some p.2 := by
            unfold findSphereByUri
            rw [h1, h2, h3]
          rw [hL]
          constructor
          · intro _
            have hmem := List.mem_of_find?_eq_some h3
            have hpred := List.find?_some h3
            exact Or.inr (Or.inr ⟨p, hmem, hpred⟩)
          · intro _
            rfl
        | none =>
          have hL : findSphereByUri spheres uri = none := by
            unfold findSphereByUri
            rw [h1, h2, h3]
          rw [hL]
          rw [List.find?_eq_none] at h3
          constructor
          · intro h
            simp at h
          · rintro (h | h | ⟨p, hp, hpred⟩)
            · simp at h
            · simp at h
            · exact absurd hpred (h3 p hp)
  · intro h1 h2
    exact renderInterface_missing i s h1 h2
  · intro h1 h2
    rw [renderInterface_new i s h1 h2]

/-- Witness for the amended C8 theorem: a concrete exact match, a concrete
trailing-slash match, and a concrete interface render gated by the exact
check. -/
theorem endpoint_resolution_witness :
    (alookup [("a", sphW)] "a").isSome = true
  ∧ findSphereByUri [("a", sphW)] "a" = alookup [("a", sphW)] "a"
  ∧ alookup stC8.spheres "a" = none
  ∧ (alookup stC8.spheres (altOf "a")).isSome = true
  ∧ findSphereByUri stC8.spheres "a" = alookup stC8.spheres (altOf "a")
  ∧ hasKey stC8.ports intfC8.uri = false
  ∧ hasKey stC8.spheres "a/" = true
  ∧ (renderInterface ⟨"i", "i", "a/", false⟩ stC8).ports
      = stC8.ports ++ [("i", ⟨stC8.nextId, ⟨"i", "i", "a/", false⟩⟩)] := by
  refine ⟨by decide, ?_, rfl, by decide, ?_, by decide, by decide, ?_⟩
  · exact (endpoint_resolution [("a", sphW)] "a" emptyView intfC8).1 (by decide)
  · exact (endpoint_resolution stC8.spheres "a" emptyView intfC8).2.1
      rfl (by decide)
  · exact (endpoint_resolution stC8.spheres "a" stC8
      ⟨"i", "i", "a/", false⟩).2.2.2.2 (by decide) (by decide)

/-- One step of the `forEach` in `ConceptModel._assignPositions`: place the
class at index `i` on the circle (`x = radius·sin(i·angleStep)`, `y = 0`,
`z = radius·cos(i·angleStep)`). -/
noncomputable def positionAt (radius angleStep : ℝ) (i : ℕ) (c : ClassEntity) :
    ClassEntity :=
  { c with position :=
      (radius * Real.sin (i * angleStep), 0, radius * Real.cos (i * angleStep)) }

/-- The `classes.forEach((classEntity, index) => ...)` loop of
`ConceptModel._assignPositions`, with explicit running index. -/
noncomputable def assignLoop (radius angleStep : ℝ) :
    ℕ → List ClassEntity → List ClassEntity
  | _, [] => []
  | i, c :: rest =>
    positionAt radius angleStep i c :: assignLoop radius angleStep (i + 1) rest

/-- `ConceptModel._assignPositions`: no-op for zero classes; a single class
goes to the origin; otherwise the classes are spread on a circle of radius
`max(30, N·5)` with angle step `2π/N` in the XZ plane, in iteration order. -/
noncomputable def assignPositions (classes : List ClassEntity) :
    List ClassEntity :=
  if classes.length = 0 then classes
  else if classes.length = 1 then
    match classes with
    | c :: rest => { c with position := ((0 : ℝ), 0, 0) } :: rest
    | [] => []
  else
    assignLoop (max (30 : ℝ) (classes.length * 5))
      (Real.pi * 2 / classes.length) 0 classes

lemma assignLoop_getElem? (R A : ℝ) :
    ∀ (l : List ClassEntity) (k i : ℕ),
      (assignLoop R A k l)[i]? = (l[i]?).map (positionAt R A (k + i)) := by
  intro l
  induction l with
  | nil => intro k i; simp [assignLoop]
  | cons c rest ih =>
    intro k i
    cases i with
    | zero => simp [assignLoop]
    | succ j =>
      simp only [assignLoop, List.getElem?_cons_succ]
      have hk : k + 1 + j = k + (j + 1) := by omega
      rw [ih (k + 1) j, hk]

/-- C9: the Layout Assigner is a no-op for zero classes, places a single
class at the origin, and for N > 1 places the class at iteration index i at
angle i·(2π/N) on a circle of radius max(30, N·5) in the XZ plane (y = 0),
preserving the iteration order and all other fields. -/
theorem assignPositions_spec (classes : List ClassEntity) :
    (classes.length = 0 → assignPositions classes = classes)
  ∧ (∀ c, classes = [c] →
      assignPositions classes = [{ c with position := ((0 : ℝ), 0, 0) }])
  ∧ (1 < classes.length → ∀ i : ℕ,
      (assignPositions classes)[i]? = (classes[i]?).map
        (positionAt (max (30 : ℝ) (classes.length * 5))
          (Real.pi * 2 / classes.length) i)) := by
  refine ⟨?_, ?_, ?_⟩
  · intro h
    unfold assignPositions
    rw [if_pos h]
  · intro c hc
    subst hc
    simp [assignPositions]
  · intro h i
    unfold assignPositions
    rw [if_neg (by omega), if_neg (by omega)]
    simpa using assignLoop_getElem?
      (max (30 : ℝ) (classes.length * 5)) (Real.pi * 2 / classes.length)
      classes 0 i

def cW1 : ClassEntity := mkClass "W1" "W1" []

def cW2 : ClassEntity := mkClass "W2" "W2" []

/-- Witness for C9 at concrete lists of zero, one and two classes. -/
theorem assignPositions_spec_witness :
    ((([] : List ClassEntity).length = 0) ∧ assignPositions [] = [])
  ∧ assignPositions [cW1] = [{ cW1 with position := ((0 : ℝ), 0, 0) }]
  ∧ (1 < ([cW1, cW2] : List ClassEntity).length)
  ∧ (assignPositions [cW1, cW2])[0]?
      = some (positionAt
          (max (30 : ℝ) (([cW1, cW2] : List ClassEntity).length * 5))
          (Real.pi * 2 / ([cW1, cW2] : List ClassEntity).length) 0 cW1) := by
  refine ⟨⟨rfl, (assignPositions_spec []).1 rfl⟩,
    (assignPositions_spec [cW1]).2.1 cW1 rfl, by decide, ?_⟩
  have h := (assignPositions_spec [cW1, cW2]).2.2 (by decide) 0
  simpa using h

/-- An RDF term, as the documented `{Term|string}` signatures see it. -/
structure RdfTerm where
  value : String
deriving DecidableEq

/-- An argument to `getClassRelationships` / `getClassInterfaces`: the
documented signature accepts an RDF `Term` or a string. -/
inductive UriArg
  | str (s : String)
  | term (t : RdfTerm)
deriving DecidableEq

/-- `typeof classUri === 'string'`. -/
def UriArg.isString : UriArg → Bool
  | .str _ => true
  | .term _ => false

/-- `ConceptModel.getClassRelationships`: the conversion line reads
`typeof classUri === 'string' ? classUri : uri.value`, and `uri` is an
undeclared identifier (the parameter is named `classUri`), so every
non-string argument throws a `ReferenceError`; a string argument filters
the relationship map by either endpoint. -/
def getClassRelationships (m : ConceptModelData) (classUri : UriArg) :
    Except JsError (List RelationshipEntity) :=
  match classUri with
  | .str u =>
    .ok ((m.relationships.map Prod.snd).filter
      (fun r0 => r0.sourceClassUri == u || r0.targetClassUri == u))
  | .term _ => .error JsError.referenceError

/-- `ConceptModel.getClassInterfaces`: same undeclared-`uri` conversion
branch as `getClassRelationships`; a string argument filters the interface
map by owner class. -/
def getClassInterfaces (m : ConceptModelData) (classUri : UriArg) :
    Except JsError (List InterfaceEntity) :=
  match classUri with
  | .str u =>
    .ok ((m.interfaces.map Prod.snd).filter (fun i => i.classUri == u))
  | .term _ => .error JsError.referenceError

/-- Normal termination of a fallible call. -/
def exceptOk {ε α : Type} : Except ε α → Bool
  | .ok _ => true
  | .error _ => false

/-- C10: `getClassRelationships` and `getClassInterfaces` terminate
normally exactly for string arguments; every non-string argument (such as
an RDF Term, which their documented signature allows) makes them throw a
`ReferenceError`, because the conversion branch reads the undeclared
identifier `uri` instead of the `classUri` parameter. -/
theorem accessor_string_only (m : ConceptModelData) (arg : UriArg) :
    (exceptOk (getClassRelationships m arg) = arg.isString)
  ∧ (exceptOk (getClassInterfaces m arg) = arg.isString)
  ∧ (arg.isString = false →
      getClassRelationships m arg = .error JsError.referenceError
    ∧ getClassInterfaces m arg = .error JsError.referenceError) := by
  cases arg with
  | str u =>
    exact ⟨rfl, rfl, fun h => by simp [UriArg.isString] at h⟩
  | term t =>
    exact ⟨rfl, rfl, fun _ => ⟨rfl, rfl⟩⟩

/-- Witness for C10 at a concrete model, a concrete Term argument and a
concrete string argument. -/
theorem accessor_string_only_witness :
    (UriArg.term ⟨"A"⟩).isString = false
  ∧ getClassRelationships mNav (UriArg.term ⟨"A"⟩)
      = .error JsError.referenceError
  ∧ getClassInterfaces mNav (UriArg.term ⟨"A"⟩)
      = .error JsError.referenceError
  ∧ exceptOk (getClassRelationships mNav (UriArg.str "A")) = true := by
  obtain ⟨h1, h2⟩ := (accessor_string_only mNav (UriArg.term ⟨"A"⟩)).2.2 rfl
  exact ⟨rfl, h1, h2, (accessor_string_only mNav (UriArg.str "A")).1⟩
